import Mathlib

/-!
# QTextToSpeech facade (`src/tts/qtexttospeech.cpp`)

A shallow embedding of the text-to-speech facade: the plug-in metadata cache
(`plugins`, `loadPluginMetadata`), provider selection (`loadMeta` and the
priority loop of `setEngineProvider`), engine loading (`loadPlugin`,
`setEngineProvider`) and the forwarding surface of `QTextToSpeech`.

Conventions of the embedding

* C++ `int` values are integers reduced to 32 bits by `toInt`; the values read
  from a CBOR map with `toInteger()` are 64-bit and are narrowed exactly where
  the source stores them in an `int`.
* `double` values (pitch, rate, volume) are rationals; only their order is used.
* `m_engine` is a raw pointer: it is `null`, points to a `live` engine, or is
  `dangling` after `delete`. Using a null or dangling pointer is a `Fault`.
* `emit` statements append to `World.emitted`, `qCritical()` lines append to
  `World.critical`. The signal-to-signal connection of line 109 relays events
  raised by the engine itself and contributes no statement of this file.
* A `QMultiHash` is the list of its (key, value) items in iteration order.
-/

namespace QtSpeech

/-! ## Integers -/

/-- Conversion of a 64-bit integer to a C++ `int` (two's complement, 32 bits). -/
def toInt (x : Int) : Int := (x + 2147483648) % 4294967296 - 2147483648

/-! ## CBOR values and maps -/

/-- The kinds of `QCborValue` this file distinguishes: integers, strings, and
everything else (for which `toInteger` and `toString` return their defaults). -/
inductive QCborValue where
  | undefined
  | integer (n : Int)
  | string (s : String)
  deriving DecidableEq, Repr

/-- The method `QCborValue::toInteger()` with its default value 0. -/
def QCborValue.toInteger : QCborValue → Int
  | .integer n => n
  | _ => 0

/-- The method `QCborValue::toString()` with its default, the empty string. -/
def QCborValue.toString : QCborValue → String
  | .string s => s
  | _ => ""

/-- A `QCborMap` with string keys, as its list of (key, value) pairs. -/
abbrev QCborMap := List (String × QCborValue)

/-- The method `QCborMap::value(key)`: the stored value, or an undefined value. -/
def QCborMap.value : QCborMap → String → QCborValue
  | [], _ => .undefined
  | (k, v) :: rest, key => if k = key then v else QCborMap.value rest key

/-- The method `QCborMap::insert(key, value)`: overwrites the value of an
existing key, otherwise adds the pair. -/
def QCborMap.insert : QCborMap → String → QCborValue → QCborMap
  | [], key, value => [(key, value)]
  | (k, v) :: rest, key, value =>
    if k = key then (k, value) :: rest else (k, v) :: QCborMap.insert rest key value

/-- The method `QCborMap::isEmpty()`. -/
def QCborMap.isEmpty (m : QCborMap) : Bool := List.isEmpty m

/-- The `int` read by `meta.value("Version").toInteger()` in `loadMeta`. -/
def version (m : QCborMap) : Int := toInt (QCborMap.value m "Version").toInteger

/-- The `int` read by `metadata.value("Priority").toInteger()` in
`setEngineProvider`. -/
def pluginPriority (m : QCborMap) : Int := toInt (QCborMap.value m "Priority").toInteger

/-! ## The multi-hash of plug-in metadata -/

/-- A `QMultiHash<QString, QCborMap>`: its items in iteration order. Items of
one key are adjacent, the most recently inserted first. -/
abbrev QMultiHash := List (String × QCborMap)

/-- The method `QMultiHash::insert(key, value)`: the new item goes in front of
the items already stored under `key`. Where a new key lands among the other keys
depends on the hash function in Qt; here it is put last, and no theorem below
depends on that choice. -/
def QMultiHash.insert : QMultiHash → String → QCborMap → QMultiHash
  | [], key, value => [(key, value)]
  | (k, v) :: rest, key, value =>
    if k = key then (key, value) :: (k, v) :: rest
    else (k, v) :: QMultiHash.insert rest key value

/-- The method `QMultiHash::values(key)`: all values stored under `key`, from
the most recently inserted to the least recently inserted. -/
def QMultiHash.values : QMultiHash → String → List QCborMap
  | [], _ => []
  | (k, v) :: rest, key =>
    if k = key then v :: QMultiHash.values rest key else QMultiHash.values rest key

/-- The method `QMultiHash::keys()`: one key per item, in iteration order. -/
def QMultiHash.keys (h : QMultiHash) : List String := h.map Prod.fst

/-! ## Engines, plug-ins and the factory loader -/

/-- The enumeration `QTextToSpeech::State`. -/
inductive State where
  | Ready
  | Speaking
  | Paused
  | BackendError
  deriving DecidableEq, Repr

/-- The virtual interface `QTextToSpeechEngine` over engine objects of type `E`,
with locales `L` and voices `V`. Calls that change the engine return the engine
after the call; setters also return whether the value was accepted.
`setProperty` is `QObject::setProperty("providerName", name)`. -/
structure QTextToSpeechEngine (E L V : Type) where
  state : E → State
  say : E → String → E
  stop : E → E
  pause : E → E
  resume : E → E
  setPitch : E → ℚ → Bool × E
  pitch : E → ℚ
  setRate : E → ℚ → Bool × E
  rate : E → ℚ
  setVolume : E → ℚ → Bool × E
  volume : E → ℚ
  setLocale : E → L → Bool × E
  locale : E → L
  availableLocales : E → List L
  setVoice : E → V → Bool × E
  voice : E → V
  availableVoices : E → List V
  setProperty : E → String → E

/-- A `QTextToSpeechPlugin`: `createTextToSpeechEngine(QVariantMap(), 0, &errorString)`
yields an engine or null, together with the error string it leaves. -/
structure QTextToSpeechPlugin (E : Type) where
  createTextToSpeechEngine : Option E × String

/-- The global `QFactoryLoader`: the metadata of the plug-ins it found (each
`meta.at(i).value(MetaData).toMap()`) and, for an index, the result of
`qobject_cast<QTextToSpeechPlugin *>(loader()->instance(idx))`. -/
structure QFactoryLoader (E : Type) where
  metaData : List QCborMap
  pluginInstance : Int → Option (QTextToSpeechPlugin E)

/-- What can go wrong with a raw pointer. -/
inductive Fault where
  | nullDereference
  | useAfterFree
  deriving DecidableEq, Repr

/-- The value of a raw `QTextToSpeechEngine *`. -/
inductive Ptr (E : Type) where
  | null
  | live (e : E)
  | dangling
  deriving DecidableEq, Repr

/-- Conversion of a pointer to `bool`: only the null pointer is false. -/
def Ptr.toBool {E : Type} : Ptr E → Bool
  | .null => false
  | _ => true

/-- The statement `delete p`: nothing for null, destroys a live object (the
pointer keeps its address and dangles), and is a fault on a dangling pointer. -/
def Ptr.delete {E : Type} : Ptr E → Except Fault (Ptr E)
  | .null => .ok .null
  | .live _ => .ok .dangling
  | .dangling => .error .useAfterFree

/-! ## State -/

/-- The members of `QTextToSpeechPrivate`. -/
structure QTextToSpeechPrivate (E : Type) where
  m_plugin : Option (QTextToSpeechPlugin E)
  m_engine : Ptr E
  m_providerName : String
  m_metaData : QCborMap

/-- The function-local statics of `QTextToSpeechPrivate::plugins`. -/
structure Statics where
  plugins : QMultiHash
  alreadyDiscovered : Bool
  deriving DecidableEq, Repr

/-- The signals `QTextToSpeech` emits with `emit`. -/
inductive Signal (L V : Type) where
  | engineChanged (engine : String)
  | pitchChanged (pitch : ℚ)
  | rateChanged (rate : ℚ)
  | volumeChanged (volume : ℚ)
  | localeChanged (locale : L)
  | voiceChanged (voice : V)
  deriving DecidableEq, Repr

/-- The `qCritical()` diagnostics of `setEngineProvider`. -/
inductive Critical where
  | noPluginsFound
  | notSupported (providerName : String)
  | errorCreating (providerName : String) (errorString : String)
  | errorLoading (providerName : String)
  deriving DecidableEq, Repr

/-- Everything a call can read or change: the statics of `plugins`, the private
object of one facade, and the signals and diagnostics produced so far. -/
structure World (E L V : Type) where
  statics : Statics
  d : QTextToSpeechPrivate E
  emitted : List (Signal L V)
  critical : List Critical

/-! ## The metadata cache -/

/-- The loop of `loadPluginMetadata`, from position `i` on. -/
def loadPluginMetadataFrom : Nat → List QCborMap → QMultiHash → QMultiHash
  | _, [], list => list
  | i, md :: rest, list =>
    let obj := QCborMap.insert md "index" (.integer i)
    loadPluginMetadataFrom (i + 1) rest
      (QMultiHash.insert list (QCborMap.value obj "Provider").toString obj)

/-- The function `QTextToSpeechPrivate::loadPluginMetadata`. -/
def loadPluginMetadata {E : Type} (l : QFactoryLoader E) (list : QMultiHash) : QMultiHash :=
  loadPluginMetadataFrom 0 l.metaData list

/-- The function `QTextToSpeechPrivate::plugins(reload)`. -/
def plugins {E : Type} (l : QFactoryLoader E) (reload : Bool) (s : Statics) :
    QMultiHash × Statics :=
  let s1 : Statics := if reload = true then { s with alreadyDiscovered := false } else s
  let s2 : Statics :=
    if !s1.alreadyDiscovered then
      { plugins := loadPluginMetadata l s1.plugins, alreadyDiscovered := true }
    else s1
  (s2.plugins, s2)

/-! ## Provider selection and engine loading -/

section Engine

variable {E L V : Type}

/-- The version loop of `loadMeta` (lines 122-128) over the remaining
candidates, carrying `versionFound` and `m_metaData`. -/
def loadMetaLoop : List QCborMap → Int × QCborMap → Int × QCborMap
  | [], acc => acc
  | md :: rest, (versionFound, m_metaData) =>
    let ver := version md
    if ver > versionFound then loadMetaLoop rest (ver, md)
    else loadMetaLoop rest (versionFound, m_metaData)

/-- The function `QTextToSpeechPrivate::loadMeta`; `plugins()` is called with
its default argument `reload = false`. -/
def loadMeta (l : QFactoryLoader E) (w : World E L V) : Bool × World E L V :=
  let cache := plugins l false w.statics
  let candidates := QMultiHash.values cache.1 w.d.m_providerName
  let found := loadMetaLoop candidates (-1, [])
  if QCborMap.isEmpty found.2 then
    (false, { w with
      statics := cache.2,
      d := { w.d with m_plugin := none,
                      m_metaData := QCborMap.insert found.2 "index" (.integer (-1)) } })
  else
    (true, { w with
      statics := cache.2,
      d := { w.d with m_plugin := none, m_metaData := found.2 } })

/-- The function `QTextToSpeechPrivate::loadPlugin`. -/
def loadPlugin (l : QFactoryLoader E) (w : World E L V) : World E L V :=
  let idx := toInt (QCborMap.value w.d.m_metaData "index").toInteger
  if idx < 0 then { w with d := { w.d with m_plugin := none } }
  else { w with d := { w.d with m_plugin := l.pluginInstance idx } }

/-- The function `QTextToSpeech::stop`. -/
def stop (ops : QTextToSpeechEngine E L V) (w : World E L V) : Except Fault (World E L V) :=
  match w.d.m_engine with
  | .null => .ok w
  | .live e => .ok { w with d := { w.d with m_engine := .live (ops.stop e) } }
  | .dangling => .error .useAfterFree

/-- The priority loop of `setEngineProvider` (lines 76-82) over the remaining
items of the cache, carrying `priority` and `m_providerName`. -/
def priorityLoop : QMultiHash → Int × String → Int × String
  | [], acc => acc
  | (provider, metadata) :: rest, (priority, m_providerName) =>
    if pluginPriority metadata > priority then
      priorityLoop rest (pluginPriority metadata, provider)
    else priorityLoop rest (priority, m_providerName)

/-- Lines 108-109 of `setEngineProvider`:
`if (m_engine) QObject::connect(m_engine, &QTextToSpeechEngine::stateChanged, ...)`.
A null pointer is skipped, a live engine is connected, and a dangling pointer
(the engine deleted at line 70) is handed to `connect`, which reads the deleted
object. -/
def connectStateChanged (w : World E L V) : Except Fault (World E L V) :=
  match w.d.m_engine with
  | .null => .ok w
  | .live _ => .ok w
  | .dangling => .error .useAfterFree

/-- Lines 88-109 of `setEngineProvider`: `loadMeta`, `loadPlugin`, the creation
of the engine and the connection of its signal. Line 102 uses `m_engine` outside
the null test. -/
def loadAndCreate (ops : QTextToSpeechEngine E L V) (l : QFactoryLoader E)
    (w : World E L V) : Except Fault (World E L V) :=
  let r := loadMeta l w
  if r.1 = false then
    .ok { r.2 with critical := r.2.critical ++ [.notSupported r.2.d.m_providerName] }
  else
    let w1 := loadPlugin l r.2
    match w1.d.m_plugin with
    | some plugin =>
      match plugin.createTextToSpeechEngine with
      | (some e, _) =>
        let name := w1.d.m_providerName
        connectStateChanged { w1 with
          d := { w1.d with m_engine := .live (ops.setProperty (ops.setProperty e name) name) } }
      | (none, _) => .error .nullDereference
    | none =>
      connectStateChanged
        { w1 with critical := w1.critical ++ [.errorLoading w1.d.m_providerName] }

/-- The function `QTextToSpeechPrivate::setEngineProvider`. -/
def setEngineProvider (ops : QTextToSpeechEngine E L V) (l : QFactoryLoader E)
    (engine : String) (w : World E L V) : Except Fault (World E L V) :=
  match stop ops w with
  | .error f => .error f
  | .ok w1 =>
    match Ptr.delete w1.d.m_engine with
    | .error f => .error f
    | .ok p =>
      let w2 : World E L V :=
        { w1 with d := { w1.d with m_engine := p, m_providerName := engine } }
      if engine = "" then
        let cache := plugins l false w2.statics
        let chosen := priorityLoop cache.1 (-1, "")
        let w3 : World E L V :=
          { w2 with statics := cache.2, d := { w2.d with m_providerName := chosen.2 } }
        if chosen.2 = "" then
          .ok { w3 with critical := w3.critical ++ [.noPluginsFound] }
        else loadAndCreate ops l w3
      else loadAndCreate ops l w2

/-- Modelled from the spec: the initial members of `QTextToSpeechPrivate`, whose
declaration (`qtexttospeech_p.h`) is not part of the sources; the facade state
starts with no provider name, no metadata, no plug-in and a null engine handle. -/
def QTextToSpeechPrivate.init : QTextToSpeechPrivate E :=
  { m_plugin := none, m_engine := .null, m_providerName := "", m_metaData := [] }

/-- The constructor `QTextToSpeech::QTextToSpeech(const QString &engine, QObject *)`
run with the statics `s`. -/
def QTextToSpeech.create (ops : QTextToSpeechEngine E L V) (l : QFactoryLoader E)
    (engine : String) (s : Statics) : Except Fault (World E L V) :=
  setEngineProvider ops l engine
    { statics := s, d := QTextToSpeechPrivate.init, emitted := [], critical := [] }

/-- The function `QTextToSpeech::setEngine`. -/
def setEngine (ops : QTextToSpeechEngine E L V) (l : QFactoryLoader E)
    (engine : String) (w : World E L V) : Except Fault (Bool × World E L V) :=
  if w.d.m_providerName = engine then .ok (true, w)
  else
    match setEngineProvider ops l engine w with
    | .error f => .error f
    | .ok w1 =>
      .ok (w1.d.m_engine.toBool,
           { w1 with emitted := w1.emitted ++ [.engineChanged w1.d.m_providerName] })

/-- The function `QTextToSpeech::engine`. -/
def engine (w : World E L V) : String := w.d.m_providerName

/-- The function `QTextToSpeech::availableEngines`. -/
def availableEngines (l : QFactoryLoader E) (s : Statics) : List String × Statics :=
  let cache := plugins l false s
  (QMultiHash.keys cache.1, cache.2)

/-- The function `QTextToSpeech::state`. -/
def state (ops : QTextToSpeechEngine E L V) (w : World E L V) : Except Fault State :=
  match w.d.m_engine with
  | .null => .ok .BackendError
  | .live e => .ok (ops.state e)
  | .dangling => .error .useAfterFree

/-! ## The forwarding surface -/

/-- The function `qMin` of `qminmax.h`. -/
def qMin (a b : ℚ) : ℚ := if a < b then a else b

/-- The function `qMax` of `qminmax.h`. -/
def qMax (a b : ℚ) : ℚ := if a < b then b else a

/-- The function `qBound(min, val, max)` of `qminmax.h`. -/
def qBound (min val max : ℚ) : ℚ := qMax min (qMin max val)

/-- The function `QTextToSpeech::say`. -/
def say (ops : QTextToSpeechEngine E L V) (text : String) (w : World E L V) :
    Except Fault (World E L V) :=
  match w.d.m_engine with
  | .null => .ok w
  | .live e => .ok { w with d := { w.d with m_engine := .live (ops.say e text) } }
  | .dangling => .error .useAfterFree

/-- The function `QTextToSpeech::pause`. -/
def pause (ops : QTextToSpeechEngine E L V) (w : World E L V) :
    Except Fault (World E L V) :=
  match w.d.m_engine with
  | .null => .ok w
  | .live e => .ok { w with d := { w.d with m_engine := .live (ops.pause e) } }
  | .dangling => .error .useAfterFree

/-- The function `QTextToSpeech::resume`. -/
def resume (ops : QTextToSpeechEngine E L V) (w : World E L V) :
    Except Fault (World E L V) :=
  match w.d.m_engine with
  | .null => .ok w
  | .live e => .ok { w with d := { w.d with m_engine := .live (ops.resume e) } }
  | .dangling => .error .useAfterFree

/-- The function `QTextToSpeech::setPitch`. -/
def setPitch (ops : QTextToSpeechEngine E L V) (pitch : ℚ) (w : World E L V) :
    Except Fault (World E L V) :=
  match w.d.m_engine with
  | .null => .ok w
  | .live e =>
    let r := ops.setPitch e pitch
    if r.1 = true then
      .ok { w with d := { w.d with m_engine := .live r.2 },
                   emitted := w.emitted ++ [.pitchChanged pitch] }
    else .ok { w with d := { w.d with m_engine := .live r.2 } }
  | .dangling => .error .useAfterFree

/-- The function `QTextToSpeech::pitch`. -/
def pitch (ops : QTextToSpeechEngine E L V) (w : World E L V) : Except Fault ℚ :=
  match w.d.m_engine with
  | .null => .ok 0
  | .live e => .ok (ops.pitch e)
  | .dangling => .error .useAfterFree

/-- The function `QTextToSpeech::setRate`. -/
def setRate (ops : QTextToSpeechEngine E L V) (rate : ℚ) (w : World E L V) :
    Except Fault (World E L V) :=
  match w.d.m_engine with
  | .null => .ok w
  | .live e =>
    let r := ops.setRate e rate
    if r.1 = true then
      .ok { w with d := { w.d with m_engine := .live r.2 },
                   emitted := w.emitted ++ [.rateChanged rate] }
    else .ok { w with d := { w.d with m_engine := .live r.2 } }
  | .dangling => .error .useAfterFree

/-- The function `QTextToSpeech::rate`. -/
def rate (ops : QTextToSpeechEngine E L V) (w : World E L V) : Except Fault ℚ :=
  match w.d.m_engine with
  | .null => .ok 0
  | .live e => .ok (ops.rate e)
  | .dangling => .error .useAfterFree

/-- The function `QTextToSpeech::setVolume`. -/
def setVolume (ops : QTextToSpeechEngine E L V) (volume : ℚ) (w : World E L V) :
    Except Fault (World E L V) :=
  let volume := qBound 0 volume 1
  match w.d.m_engine with
  | .null => .ok w
  | .live e =>
    let r := ops.setVolume e volume
    if r.1 = true then
      .ok { w with d := { w.d with m_engine := .live r.2 },
                   emitted := w.emitted ++ [.volumeChanged volume] }
    else .ok { w with d := { w.d with m_engine := .live r.2 } }
  | .dangling => .error .useAfterFree

/-- The function `QTextToSpeech::volume`. -/
def volume (ops : QTextToSpeechEngine E L V) (w : World E L V) : Except Fault ℚ :=
  match w.d.m_engine with
  | .null => .ok 0
  | .live e => .ok (ops.volume e)
  | .dangling => .error .useAfterFree

/-- The function `QTextToSpeech::setLocale`. -/
def setLocale (ops : QTextToSpeechEngine E L V) (locale : L) (w : World E L V) :
    Except Fault (World E L V) :=
  match w.d.m_engine with
  | .null => .ok w
  | .live e =>
    let r := ops.setLocale e locale
    if r.1 = true then
      .ok { w with d := { w.d with m_engine := .live r.2 },
                   emitted := w.emitted ++ [.localeChanged locale, .voiceChanged (ops.voice r.2)] }
    else .ok { w with d := { w.d with m_engine := .live r.2 } }
  | .dangling => .error .useAfterFree

/-- The function `QTextToSpeech::locale`; the value `default` is `QLocale()`. -/
def locale [Inhabited L] (ops : QTextToSpeechEngine E L V) (w : World E L V) : Except Fault L :=
  match w.d.m_engine with
  | .null => .ok default
  | .live e => .ok (ops.locale e)
  | .dangling => .error .useAfterFree

/-- The function `QTextToSpeech::availableLocales`. -/
def availableLocales (ops : QTextToSpeechEngine E L V) (w : World E L V) : Except Fault (List L) :=
  match w.d.m_engine with
  | .null => .ok []
  | .live e => .ok (ops.availableLocales e)
  | .dangling => .error .useAfterFree

/-- The function `QTextToSpeech::setVoice`. -/
def setVoice (ops : QTextToSpeechEngine E L V) (voice : V) (w : World E L V) :
    Except Fault (World E L V) :=
  match w.d.m_engine with
  | .null => .ok w
  | .live e =>
    let r := ops.setVoice e voice
    if r.1 = true then
      .ok { w with d := { w.d with m_engine := .live r.2 },
                   emitted := w.emitted ++ [.voiceChanged voice] }
    else .ok { w with d := { w.d with m_engine := .live r.2 } }
  | .dangling => .error .useAfterFree

/-- The function `QTextToSpeech::voice`; the value `default` is `QVoice()`. -/
def voice [Inhabited V] (ops : QTextToSpeechEngine E L V) (w : World E L V) : Except Fault V :=
  match w.d.m_engine with
  | .null => .ok default
  | .live e => .ok (ops.voice e)
  | .dangling => .error .useAfterFree

/-- The function `QTextToSpeech::availableVoices`. -/
def availableVoices (ops : QTextToSpeechEngine E L V) (w : World E L V) : Except Fault (List V) :=
  match w.d.m_engine with
  | .null => .ok []
  | .live e => .ok (ops.availableVoices e)
  | .dangling => .error .useAfterFree

end Engine

/-! ## The mapping described for discovery -/

/-- The items the specification describes for a loader list: one item per
loader record, keyed by its Provider and tagged with its position as index
(positions counted from `i`), in the order of the list. -/
def specItemsFrom : Nat → List QCborMap → List (String × QCborMap)
  | _, [] => []
  | i, md :: rest =>
    ((QCborMap.value md "Provider").toString, QCborMap.insert md "index" (.integer i)) ::
      specItemsFrom (i + 1) rest

/-! ## Sample objects

Concrete engines, plug-ins and loaders on which the theorems below are
instantiated. -/

/-- The statics of `plugins` before its first call (lines 150-151). -/
def Statics.init : Statics := { plugins := [], alreadyDiscovered := false }

/-- A sample engine object: its state, its volume and its provider name
property. -/
structure SampleEngine where
  state : State
  volume : ℚ
  providerName : String
  deriving DecidableEq

/-- A sample engine implementation; it accepts every volume and refuses the
other settings. Locales and voices are strings. -/
def sampleOps : QTextToSpeechEngine SampleEngine String String where
  state := fun e => e.state
  say := fun e _ => { e with state := .Speaking }
  stop := fun e => { e with state := .Ready }
  pause := fun e => { e with state := .Paused }
  resume := fun e => { e with state := .Speaking }
  setPitch := fun e _ => (false, e)
  pitch := fun _ => 0
  setRate := fun e _ => (false, e)
  rate := fun _ => 0
  setVolume := fun e v => (true, { e with volume := v })
  volume := fun e => e.volume
  setLocale := fun e _ => (false, e)
  locale := fun _ => "en_US"
  availableLocales := fun _ => ["en_US"]
  setVoice := fun e _ => (false, e)
  voice := fun _ => "default"
  availableVoices := fun _ => ["default"]
  setProperty := fun e name => { e with providerName := name }

/-- A plug-in whose engine creation succeeds. -/
def workingPlugin : QTextToSpeechPlugin SampleEngine :=
  { createTextToSpeechEngine := (some { state := .Ready, volume := 1, providerName := "" }, "") }

/-- A plug-in whose engine creation returns null. -/
def failingPlugin : QTextToSpeechPlugin SampleEngine :=
  { createTextToSpeechEngine := (none, "no backend") }

/-- The metadata object of a plug-in with the given provider, version and
priority. -/
def record (provider : String) (ver priority : Int) : QCborMap :=
  [("Provider", .string provider), ("Version", .integer ver), ("Priority", .integer priority)]

/-- A loader that reports the given metadata and hands out `plugin` for every
index. -/
def sampleLoader (metaData : List QCborMap) (plugin : Option (QTextToSpeechPlugin SampleEngine)) :
    QFactoryLoader SampleEngine :=
  { metaData := metaData, pluginInstance := fun _ => plugin }

/-- A facade that has no engine and the given provider name, before any
discovery. -/
def idle (name : String) : World SampleEngine String String :=
  { statics := Statics.init,
    d := { QTextToSpeechPrivate.init with m_providerName := name },
    emitted := [], critical := [] }

/-! ## Lemmas on integers, maps and the cache -/

theorem toInt_eq_self {x : Int} (h1 : -2147483648 ≤ x) (h2 : x < 2147483648) :
    toInt x = x := by
  unfold toInt
  omega

theorem toInt_lower (x : Int) : -2147483648 ≤ toInt x := by
  unfold toInt
  omega

theorem toInt_upper (x : Int) : toInt x < 2147483648 := by
  unfold toInt
  omega

theorem QCborMap.isEmpty_insert (m : QCborMap) (key : String) (value : QCborValue) :
    QCborMap.isEmpty (QCborMap.insert m key value) = false := by
  cases m with
  | nil => rfl
  | cons p rest =>
    obtain ⟨k, v⟩ := p
    by_cases h : k = key <;> simp [QCborMap.insert, QCborMap.isEmpty, h]

theorem QCborMap.value_insert_self (m : QCborMap) (key : String) (value : QCborValue) :
    QCborMap.value (QCborMap.insert m key value) key = value := by
  induction m with
  | nil => simp [QCborMap.insert, QCborMap.value]
  | cons p rest ih =>
    obtain ⟨k, v⟩ := p
    by_cases h : k = key <;> simp [QCborMap.insert, QCborMap.value, h, ih]

theorem QCborMap.value_insert_other (m : QCborMap) (key other : String) (value : QCborValue)
    (h : key ≠ other) :
    QCborMap.value (QCborMap.insert m key value) other = QCborMap.value m other := by
  induction m with
  | nil => simp [QCborMap.insert, QCborMap.value, h]
  | cons p rest ih =>
    obtain ⟨k, v⟩ := p
    by_cases hk : k = key
    · subst hk
      simp [QCborMap.insert, QCborMap.value, h]
    · by_cases ho : k = other
      · subst ho
        simp [QCborMap.insert, QCborMap.value, hk]
      · simp [QCborMap.insert, QCborMap.value, hk, ho, ih]

theorem QMultiHash.values_insert (h : QMultiHash) (key other : String) (value : QCborMap) :
    QMultiHash.values (QMultiHash.insert h key value) other =
      if key = other then value :: QMultiHash.values h other else QMultiHash.values h other := by
  induction h with
  | nil => simp [QMultiHash.insert, QMultiHash.values]
  | cons p rest ih =>
    obtain ⟨k, v⟩ := p
    by_cases hk : k = key
    · subst hk
      by_cases ho : k = other <;> simp [QMultiHash.insert, QMultiHash.values, ho]
    · by_cases ho : k = other
      · subst ho
        have hne : ¬ key = k := fun e => hk e.symm
        simp [QMultiHash.insert, QMultiHash.values, hk, ih, hne]
      · by_cases hko : key = other
        · subst hko
          simp [QMultiHash.insert, QMultiHash.values, hk, ih]
        · simp [QMultiHash.insert, QMultiHash.values, hk, ho, ih, hko]

theorem QMultiHash.mem_values {h : QMultiHash} {key : String} {m : QCborMap} :
    m ∈ QMultiHash.values h key ↔ (key, m) ∈ h := by
  induction h with
  | nil => simp [QMultiHash.values]
  | cons p rest ih =>
    obtain ⟨k, v⟩ := p
    by_cases hk : k = key
    · subst hk
      simp [QMultiHash.values, ih]
    · have hne : ¬ key = k := fun e => hk e.symm
      simp [QMultiHash.values, hk, ih, hne]

theorem plugins_discovered {E : Type} (l : QFactoryLoader E) (reload : Bool) (s : Statics) :
    (plugins l reload s).2.alreadyDiscovered = true ∧
      (plugins l reload s).2.plugins = (plugins l reload s).1 := by
  unfold plugins
  cases reload <;> cases h : s.alreadyDiscovered <;> simp [h]

theorem plugins_cached {E : Type} (l : QFactoryLoader E) (s : Statics)
    (h : s.alreadyDiscovered = true) : plugins l false s = (s.plugins, s) := by
  simp [plugins, h]

theorem plugins_again {E : Type} (l l2 : QFactoryLoader E) (reload : Bool) (s : Statics) :
    plugins l2 false (plugins l reload s).2 = ((plugins l reload s).1, (plugins l reload s).2) := by
  have h := plugins_discovered l reload s
  rw [plugins_cached l2 _ h.1, h.2]

theorem QMultiHash.mem_insert {h : QMultiHash} {key : String} {value : QCborMap}
    {e : String × QCborMap} :
    e ∈ QMultiHash.insert h key value ↔ e = (key, value) ∨ e ∈ h := by
  induction h with
  | nil => simp [QMultiHash.insert]
  | cons p rest ih =>
    obtain ⟨k, v⟩ := p
    by_cases hk : k = key
    · simp [QMultiHash.insert, hk]
    · simp only [QMultiHash.insert, hk, if_false, List.mem_cons, ih]
      tauto

/-- Every record that discovery stores is a non-empty map: it holds its index. -/
theorem loadPluginMetadataFrom_nonempty (i : Nat) (ms : List QCborMap) (h : QMultiHash)
    (hh : ∀ e ∈ h, QCborMap.isEmpty e.2 = false) :
    ∀ e ∈ loadPluginMetadataFrom i ms h, QCborMap.isEmpty e.2 = false := by
  induction ms generalizing i h with
  | nil => simpa [loadPluginMetadataFrom] using hh
  | cons md rest ih =>
    simp only [loadPluginMetadataFrom]
    apply ih
    intro e he
    rcases QMultiHash.mem_insert.mp he with rfl | he
    · exact QCborMap.isEmpty_insert _ _ _
    · exact hh e he

theorem plugins_nonempty {E : Type} (l : QFactoryLoader E) (reload : Bool) (s : Statics)
    (hs : ∀ e ∈ s.plugins, QCborMap.isEmpty e.2 = false) :
    ∀ e ∈ (plugins l reload s).1, QCborMap.isEmpty e.2 = false := by
  unfold plugins loadPluginMetadata
  cases reload <;> cases h : s.alreadyDiscovered <;>
    simp only [h, if_true, if_false, Bool.not_true, Bool.not_false, Bool.false_eq_true] <;>
    first
      | exact hs
      | exact loadPluginMetadataFrom_nonempty 0 l.metaData s.plugins hs

/-! ## Lemmas on the two selection loops -/

/-- The version loop either keeps its accumulator, when no candidate exceeds
`versionFound`, or ends on the first candidate of highest version. -/
theorem loadMetaLoop_spec (cs : List QCborMap) (v : Int) (m : QCborMap) :
    (loadMetaLoop cs (v, m) = (v, m) ∧ ∀ c ∈ cs, version c ≤ v) ∨
    ∃ pre x post, cs = pre ++ x :: post ∧ loadMetaLoop cs (v, m) = (version x, x) ∧
      v < version x ∧ (∀ y ∈ pre, version y < version x) ∧
      (∀ y ∈ post, version y ≤ version x) := by
  induction cs generalizing v m with
  | nil => exact Or.inl ⟨rfl, by simp⟩
  | cons c rest ih =>
    by_cases hc : version c > v
    · have hstep : loadMetaLoop (c :: rest) (v, m) = loadMetaLoop rest (version c, c) := by
        simp [loadMetaLoop, hc]
      rcases ih (version c) c with ⟨heq, hall⟩ | ⟨pre, x, post, hsplit, heq, hlt, hpre, hpost⟩
      · exact Or.inr ⟨[], c, rest, rfl, by rw [hstep, heq], hc, by simp, hall⟩
      · refine Or.inr ⟨c :: pre, x, post, by simp [hsplit], by rw [hstep, heq], by omega, ?_, hpost⟩
        intro y hy
        rcases List.mem_cons.mp hy with rfl | hy
        · exact hlt
        · exact hpre y hy
    · have hstep : loadMetaLoop (c :: rest) (v, m) = loadMetaLoop rest (v, m) := by
        simp [loadMetaLoop, hc]
      rcases ih v m with ⟨heq, hall⟩ | ⟨pre, x, post, hsplit, heq, hlt, hpre, hpost⟩
      · refine Or.inl ⟨by rw [hstep, heq], ?_⟩
        intro y hy
        rcases List.mem_cons.mp hy with rfl | hy
        · omega
        · exact hall y hy
      · refine Or.inr ⟨c :: pre, x, post, by simp [hsplit], by rw [hstep, heq], hlt, ?_, hpost⟩
        intro y hy
        rcases List.mem_cons.mp hy with rfl | hy
        · omega
        · exact hpre y hy

/-- The priority loop either keeps its accumulator, when no item exceeds
`priority`, or ends on the key of the first item of highest priority. -/
theorem priorityLoop_spec (c : QMultiHash) (p : Int) (name : String) :
    (priorityLoop c (p, name) = (p, name) ∧ ∀ e ∈ c, pluginPriority e.2 ≤ p) ∨
    ∃ pre x post, c = pre ++ x :: post ∧ priorityLoop c (p, name) = (pluginPriority x.2, x.1) ∧
      p < pluginPriority x.2 ∧ (∀ y ∈ pre, pluginPriority y.2 < pluginPriority x.2) ∧
      (∀ y ∈ post, pluginPriority y.2 ≤ pluginPriority x.2) := by
  induction c generalizing p name with
  | nil => exact Or.inl ⟨rfl, by simp⟩
  | cons e rest ih =>
    obtain ⟨k, md⟩ := e
    by_cases hc : pluginPriority md > p
    · have hstep : priorityLoop ((k, md) :: rest) (p, name) =
          priorityLoop rest (pluginPriority md, k) := by
        simp [priorityLoop, hc]
      rcases ih (pluginPriority md) k with
        ⟨heq, hall⟩ | ⟨pre, x, post, hsplit, heq, hlt, hpre, hpost⟩
      · exact Or.inr ⟨[], (k, md), rest, rfl, by rw [hstep, heq], hc, by simp, hall⟩
      · refine Or.inr ⟨(k, md) :: pre, x, post, by simp [hsplit], by rw [hstep, heq],
          by omega, ?_, hpost⟩
        intro y hy
        rcases List.mem_cons.mp hy with rfl | hy
        · exact hlt
        · exact hpre y hy
    · have hstep : priorityLoop ((k, md) :: rest) (p, name) = priorityLoop rest (p, name) := by
        simp [priorityLoop, hc]
      rcases ih p name with ⟨heq, hall⟩ | ⟨pre, x, post, hsplit, heq, hlt, hpre, hpost⟩
      · refine Or.inl ⟨by rw [hstep, heq], ?_⟩
        intro y hy
        rcases List.mem_cons.mp hy with rfl | hy
        · simp only; omega
        · exact hall y hy
      · refine Or.inr ⟨(k, md) :: pre, x, post, by simp [hsplit], by rw [hstep, heq], hlt,
          ?_, hpost⟩
        intro y hy
        rcases List.mem_cons.mp hy with rfl | hy
        · simp only; omega
        · exact hpre y hy

/-- What `loadMeta` returns and stores, in terms of its version loop. -/
theorem loadMeta_eq {E L V : Type} (l : QFactoryLoader E) (w : World E L V) :
    let found := loadMetaLoop
      (QMultiHash.values (plugins l false w.statics).1 w.d.m_providerName) (-1, [])
    (loadMeta l w).1 = !QCborMap.isEmpty found.2 ∧
    (loadMeta l w).2.statics = (plugins l false w.statics).2 ∧
    (loadMeta l w).2.d.m_providerName = w.d.m_providerName ∧
    (loadMeta l w).2.d.m_engine = w.d.m_engine ∧
    (loadMeta l w).2.emitted = w.emitted ∧
    (loadMeta l w).2.critical = w.critical ∧
    (loadMeta l w).2.d.m_metaData =
      if QCborMap.isEmpty found.2 then QCborMap.insert found.2 "index" (.integer (-1))
      else found.2 := by
  intro found
  unfold loadMeta
  by_cases h : QCborMap.isEmpty (loadMetaLoop
      (QMultiHash.values (plugins l false w.statics).1 w.d.m_providerName) (-1, [])).2 = true
  · simp [found, h]
  · simp [found, h]

/-- The first candidate of highest version is unique. -/
theorem first_max_unique {α : Type} (f : α → Int) {pre pre2 post post2 : List α} {x x2 : α}
    (h : pre ++ x :: post = pre2 ++ x2 :: post2)
    (hpre : ∀ y ∈ pre, f y < f x) (hpost : ∀ y ∈ post, f y ≤ f x)
    (hpre2 : ∀ y ∈ pre2, f y < f x2) (hpost2 : ∀ y ∈ post2, f y ≤ f x2) :
    pre = pre2 ∧ x = x2 ∧ post = post2 := by
  induction pre generalizing pre2 with
  | nil =>
    cases pre2 with
    | nil =>
      simp only [List.nil_append, List.cons.injEq] at h
      exact ⟨rfl, h.1, h.2⟩
    | cons a rest =>
      simp only [List.nil_append, List.cons_append, List.cons.injEq] at h
      obtain ⟨rfl, hpost_eq⟩ := h
      have h1 := hpre2 x (by simp)
      have h2 := hpost x2 (by rw [hpost_eq]; simp)
      omega
  | cons a rest ih =>
    cases pre2 with
    | nil =>
      simp only [List.nil_append, List.cons_append, List.cons.injEq] at h
      obtain ⟨rfl, hpost_eq⟩ := h
      have h1 := hpre a (by simp)
      have h2 := hpost2 x (by rw [← hpost_eq]; simp)
      omega
    | cons b rest2 =>
      simp only [List.cons_append, List.cons.injEq] at h
      obtain ⟨rfl, htail⟩ := h
      have := ih htail (fun y hy => hpre y (List.mem_cons_of_mem _ hy))
        (fun y hy => hpre2 y (List.mem_cons_of_mem _ hy))
      exact ⟨by rw [this.1], this.2.1, this.2.2⟩

/-! ## Lemmas on `setEngineProvider` -/

/-- Lines 73-109 of `setEngineProvider` once `stop`, `delete` and the assignment
of the name have left the engine pointer `p`. -/
theorem setEngineProvider_eq {E L V : Type} (ops : QTextToSpeechEngine E L V)
    (l : QFactoryLoader E) (name : String) (w : World E L V) (p : Ptr E)
    (hp : (w.d.m_engine = .null ∧ p = .null) ∨ ((∃ e, w.d.m_engine = .live e) ∧ p = .dangling)) :
    setEngineProvider ops l name w =
      if name = "" then
        if (priorityLoop (plugins l false w.statics).1 (-1, "")).2 = "" then
          .ok { w with
            statics := (plugins l false w.statics).2,
            d := { w.d with m_engine := p, m_providerName := "" },
            critical := w.critical ++ [.noPluginsFound] }
        else
          loadAndCreate ops l { w with
            statics := (plugins l false w.statics).2,
            d := { w.d with m_engine := p,
                            m_providerName :=
                              (priorityLoop (plugins l false w.statics).1 (-1, "")).2 } }
      else loadAndCreate ops l { w with d := { w.d with m_engine := p, m_providerName := name } } := by
  rcases hp with ⟨h, rfl⟩ | ⟨⟨e, h⟩, rfl⟩
  · by_cases hn : name = ""
    · by_cases hc : (priorityLoop (plugins l false w.statics).1 (-1, "")).2 = ""
      · simp [setEngineProvider, stop, h, Ptr.delete, hn, hc]
      · simp [setEngineProvider, stop, h, Ptr.delete, hn, hc]
    · simp [setEngineProvider, stop, h, Ptr.delete, hn]
  · by_cases hn : name = ""
    · by_cases hc : (priorityLoop (plugins l false w.statics).1 (-1, "")).2 = ""
      · simp [setEngineProvider, stop, h, Ptr.delete, hn, hc]
      · simp [setEngineProvider, stop, h, Ptr.delete, hn, hc]
    · simp [setEngineProvider, stop, h, Ptr.delete, hn]

theorem setEngineProvider_dangling {E L V : Type} (ops : QTextToSpeechEngine E L V)
    (l : QFactoryLoader E) (name : String) (w : World E L V) (h : w.d.m_engine = .dangling) :
    setEngineProvider ops l name w = .error .useAfterFree := by
  simp [setEngineProvider, stop, h]

/-- Running `loadMeta` after a discovery finds the same cache. -/
theorem loadMeta_statics {E L V : Type} (l : QFactoryLoader E) (w : World E L V) :
    loadMeta l { w with statics := (plugins l false w.statics).2 } = loadMeta l w := by
  unfold loadMeta
  simp only [plugins_again]

theorem loadAndCreate_statics {E L V : Type} (ops : QTextToSpeechEngine E L V)
    (l : QFactoryLoader E) (w : World E L V) :
    loadAndCreate ops l { w with statics := (plugins l false w.statics).2 } =
      loadAndCreate ops l w := by
  unfold loadAndCreate
  rw [loadMeta_statics]

/-- Connecting the signal changes nothing; it succeeds unless the pointer
dangles. -/
theorem connectStateChanged_ok {E L V : Type} (w w2 : World E L V)
    (h : connectStateChanged w = .ok w2) : w2 = w ∧ w.d.m_engine ≠ .dangling := by
  unfold connectStateChanged at h
  cases hm : w.d.m_engine with
  | null =>
    simp only [hm] at h
    injection h with h
    exact ⟨h.symm, by simp⟩
  | live e =>
    simp only [hm] at h
    injection h with h
    exact ⟨h.symm, by simp⟩
  | dangling =>
    simp only [hm] at h
    cases h

/-- The ways `loadAndCreate` can return: the provider is not supported, the
plug-in did not load, or an engine was created. -/
theorem loadAndCreate_ok {E L V : Type} (ops : QTextToSpeechEngine E L V)
    (l : QFactoryLoader E) (w w2 : World E L V) (h : loadAndCreate ops l w = .ok w2) :
    w2.d.m_providerName = w.d.m_providerName ∧
    w2.d.m_metaData = (loadMeta l w).2.d.m_metaData ∧
    (((loadMeta l w).1 = false ∧ w2.critical = w.critical ++ [.notSupported w.d.m_providerName] ∧
        w2.d.m_engine = w.d.m_engine) ∨
     ((loadMeta l w).1 = true ∧ w2.critical = w.critical ++ [.errorLoading w.d.m_providerName] ∧
        w2.d.m_engine = w.d.m_engine) ∨
     ((loadMeta l w).1 = true ∧ w2.critical = w.critical ∧ ∃ e, w2.d.m_engine = .live e)) := by
  obtain ⟨-, -, hname, heng, -, hcrit, -⟩ := loadMeta_eq l w
  unfold loadAndCreate at h
  by_cases hr : (loadMeta l w).1 = false
  · simp only [hr, if_true] at h
    injection h with h
    subst h
    simp [hr, hname, heng, hcrit]
  · have hr2 : (loadMeta l w).1 = true := by
      cases hb : (loadMeta l w).1
      · exact absurd hb hr
      · rfl
    simp only [hr, if_false] at h
    have hlp : ∀ w0 : World E L V, (loadPlugin l w0).d.m_providerName = w0.d.m_providerName ∧
        (loadPlugin l w0).d.m_metaData = w0.d.m_metaData ∧
        (loadPlugin l w0).d.m_engine = w0.d.m_engine ∧
        (loadPlugin l w0).critical = w0.critical := by
      intro w0
      unfold loadPlugin
      by_cases hi : toInt (QCborMap.value w0.d.m_metaData "index").toInteger < 0 <;> simp [hi]
    obtain ⟨hn1, hm1, he1, hc1⟩ := hlp (loadMeta l w).2
    cases hpl : (loadPlugin l (loadMeta l w).2).d.m_plugin with
    | none =>
      simp only [hpl] at h
      obtain ⟨h, -⟩ := connectStateChanged_ok _ _ (by simpa using h)
      subst h
      simp [hr2, hn1, hm1, he1, hc1, hname, heng, hcrit]
    | some plugin =>
      simp only [hpl] at h
      rcases hcr : plugin.createTextToSpeechEngine with ⟨_ | e, msg⟩
      · simp [hcr] at h
      · simp only [hcr] at h
        obtain ⟨h, -⟩ := connectStateChanged_ok _ _ (by simpa using h)
        subst h
        simp [hr2, hn1, hm1, hc1, hname, hcrit]

/-- The version loop ends on the first candidate of highest version when that
version is not negative. -/
theorem loadMetaLoop_first_max {cs pre post : List QCborMap} {x : QCborMap}
    (hsplit : cs = pre ++ x :: post) (hpre : ∀ y ∈ pre, version y < version x)
    (hpost : ∀ y ∈ post, version y ≤ version x) (hx : 0 ≤ version x) :
    loadMetaLoop cs (-1, []) = (version x, x) := by
  rcases loadMetaLoop_spec cs (-1) [] with
    ⟨-, hall⟩ | ⟨pre2, x2, post2, hsplit2, heq, -, hpre2, hpost2⟩
  · have := hall x (by rw [hsplit]; simp)
    omega
  · rw [hsplit] at hsplit2
    obtain ⟨-, rfl, -⟩ := first_max_unique version hsplit2 hpre hpost hpre2 hpost2
    exact heq

/-- The priority loop ends on the key of the first item of highest priority when
that priority is not negative. -/
theorem priorityLoop_first_max {c pre post : QMultiHash} {x : String × QCborMap}
    (hsplit : c = pre ++ x :: post)
    (hpre : ∀ y ∈ pre, pluginPriority y.2 < pluginPriority x.2)
    (hpost : ∀ y ∈ post, pluginPriority y.2 ≤ pluginPriority x.2)
    (hx : 0 ≤ pluginPriority x.2) :
    priorityLoop c (-1, "") = (pluginPriority x.2, x.1) := by
  rcases priorityLoop_spec c (-1) "" with
    ⟨-, hall⟩ | ⟨pre2, x2, post2, hsplit2, heq, -, hpre2, hpost2⟩
  · have := hall x (by rw [hsplit]; simp)
    omega
  · rw [hsplit] at hsplit2
    obtain ⟨-, rfl, -⟩ :=
      first_max_unique (fun e : String × QCborMap => pluginPriority e.2) hsplit2
        hpre hpost hpre2 hpost2
    exact heq

/-- The default selection proceeds as the selection of the name its priority
loop resolves, when that name is not empty. -/
theorem setEngineProvider_default {E L V : Type} (ops : QTextToSpeechEngine E L V)
    (l : QFactoryLoader E) (w : World E L V)
    (hc : (priorityLoop (plugins l false w.statics).1 (-1, "")).2 ≠ "") :
    setEngineProvider ops l "" w =
      setEngineProvider ops l (priorityLoop (plugins l false w.statics).1 (-1, "")).2 w := by
  cases hm : w.d.m_engine with
  | dangling =>
    rw [setEngineProvider_dangling ops l _ w hm, setEngineProvider_dangling ops l _ w hm]
  | null =>
    rw [setEngineProvider_eq ops l "" w .null (Or.inl ⟨hm, rfl⟩),
      setEngineProvider_eq ops l _ w .null (Or.inl ⟨hm, rfl⟩)]
    simp only [if_true, hc, if_false]
    generalize (priorityLoop (plugins l false w.statics).1 (-1, "")).2 = n
    exact loadAndCreate_statics ops l { w with d := { w.d with m_engine := .null, m_providerName := n } }
  | live e =>
    rw [setEngineProvider_eq ops l "" w .dangling (Or.inr ⟨⟨e, hm⟩, rfl⟩),
      setEngineProvider_eq ops l _ w .dangling (Or.inr ⟨⟨e, hm⟩, rfl⟩)]
    simp only [if_true, hc, if_false]
    generalize (priorityLoop (plugins l false w.statics).1 (-1, "")).2 = n
    exact loadAndCreate_statics ops l
      { w with d := { w.d with m_engine := .dangling, m_providerName := n } }

/-- A completed `setEngineProvider` for a non-empty name has stored that name. -/
theorem setEngineProvider_name {E L V : Type} (ops : QTextToSpeechEngine E L V)
    (l : QFactoryLoader E) (name : String) (w w2 : World E L V) (hne : name ≠ "")
    (h : setEngineProvider ops l name w = .ok w2) : w2.d.m_providerName = name := by
  have hp : ∃ p : Ptr E, (w.d.m_engine = .null ∧ p = .null) ∨
      ((∃ e, w.d.m_engine = .live e) ∧ p = .dangling) := by
    cases hm : w.d.m_engine with
    | null => exact ⟨.null, Or.inl ⟨rfl, rfl⟩⟩
    | live e => exact ⟨.dangling, Or.inr ⟨⟨e, rfl⟩, rfl⟩⟩
    | dangling =>
      rw [setEngineProvider_dangling ops l name w hm] at h
      cases h
  obtain ⟨p, hp⟩ := hp
  rw [setEngineProvider_eq ops l name w p hp] at h
  simp only [hne, if_false] at h
  exact (loadAndCreate_ok ops l _ w2 h).1

/-- When `loadMeta` returns true it has stored a candidate of highest version
(versions read as `int`). -/
theorem loadMeta_true {E L V : Type} (l : QFactoryLoader E) (w : World E L V)
    (h : (loadMeta l w).1 = true) :
    (loadMeta l w).2.d.m_metaData ∈
        QMultiHash.values (plugins l false w.statics).1 w.d.m_providerName ∧
    ∀ c ∈ QMultiHash.values (plugins l false w.statics).1 w.d.m_providerName,
      version c ≤ version (loadMeta l w).2.d.m_metaData := by
  obtain ⟨hfst, -, -, -, -, -, hmeta⟩ := loadMeta_eq l w
  rw [h] at hfst
  have hne : QCborMap.isEmpty (loadMetaLoop
      (QMultiHash.values (plugins l false w.statics).1 w.d.m_providerName) (-1, [])).2 = false := by
    cases hc : QCborMap.isEmpty (loadMetaLoop
      (QMultiHash.values (plugins l false w.statics).1 w.d.m_providerName) (-1, [])).2
    · rfl
    · simp [hc] at hfst
  have hsel : (loadMeta l w).2.d.m_metaData = (loadMetaLoop
      (QMultiHash.values (plugins l false w.statics).1 w.d.m_providerName) (-1, [])).2 := by
    rw [hmeta]
    simp [hne]
  rcases loadMetaLoop_spec
      (QMultiHash.values (plugins l false w.statics).1 w.d.m_providerName) (-1) [] with
    ⟨heq, -⟩ | ⟨pre, x, post, hsplit, heq, -, hpre, hpost⟩
  · rw [heq] at hne
    simp [QCborMap.isEmpty] at hne
  · rw [heq] at hsel
    simp only at hsel
    rw [hsel]
    constructor
    · rw [hsplit]
      simp
    · intro c hc
      rw [hsplit] at hc
      rcases List.mem_append.mp hc with hc | hc
      · exact le_of_lt (hpre c hc)
      · rcases List.mem_cons.mp hc with rfl | hc
        · exact le_refl _
        · exact hpost c hc

/-- The function `loadAndCreate` when `loadMeta` fails. -/
theorem loadAndCreate_not_supported {E L V : Type} (ops : QTextToSpeechEngine E L V)
    (l : QFactoryLoader E) (w : World E L V) (h : (loadMeta l w).1 = false) :
    loadAndCreate ops l w =
      .ok { (loadMeta l w).2 with
        critical := (loadMeta l w).2.critical ++ [.notSupported (loadMeta l w).2.d.m_providerName] } := by
  simp [loadAndCreate, h]

/-- The function `loadAndCreate` when the plug-in returns a null engine: line
102 dereferences it. -/
theorem loadAndCreate_null_engine {E L V : Type} (ops : QTextToSpeechEngine E L V)
    (l : QFactoryLoader E) (w : World E L V) (plugin : QTextToSpeechPlugin E)
    (h : (loadMeta l w).1 = true)
    (hplugin : (loadPlugin l (loadMeta l w).2).d.m_plugin = some plugin)
    (hnull : plugin.createTextToSpeechEngine.1 = none) :
    loadAndCreate ops l w = .error .nullDereference := by
  unfold loadAndCreate
  simp only [h, hplugin]
  rcases hcr : plugin.createTextToSpeechEngine with ⟨_ | e, msg⟩
  · simp
  · rw [hcr] at hnull
    cases hnull

/-- The function `loadMeta` for a provider name without records. -/
theorem loadMeta_missing {E L V : Type} (l : QFactoryLoader E) (w : World E L V)
    (hmiss : QMultiHash.values (plugins l false w.statics).1 w.d.m_providerName = []) :
    loadMeta l w = (false, { w with
      statics := (plugins l false w.statics).2,
      d := { w.d with m_plugin := none, m_metaData := [("index", .integer (-1))] } }) := by
  unfold loadMeta
  simp only [hmiss, loadMetaLoop]
  rfl

/-- The function `setEngineProvider` for a facade without engine and a
non-empty name without records. -/
theorem setEngineProvider_missing {E L V : Type} (ops : QTextToSpeechEngine E L V)
    (l : QFactoryLoader E) (name : String) (w : World E L V)
    (hnull : w.d.m_engine = .null) (hne : name ≠ "")
    (hmiss : QMultiHash.values (plugins l false w.statics).1 name = []) :
    setEngineProvider ops l name w = .ok
      { statics := (plugins l false w.statics).2,
        d := { m_plugin := none, m_engine := .null, m_providerName := name,
               m_metaData := [("index", .integer (-1))] },
        emitted := w.emitted,
        critical := w.critical ++ [.notSupported name] } := by
  rw [setEngineProvider_eq ops l name w .null (Or.inl ⟨hnull, rfl⟩)]
  simp only [hne, if_false]
  have hm := loadMeta_missing l
    { w with d := { w.d with m_engine := .null, m_providerName := name } } hmiss
  rw [loadAndCreate_not_supported ops l _ (by rw [hm])]
  rw [hm]

/-! ## C3: version selection in `loadMeta` -/

/-- C3 (counterexample): under provider "X" the cache holds a record of Version
2147483648 and one of Version 1; `loadMeta` returns true and selects the record
of Version 1, because 2147483648 read into an `int` is negative. -/
theorem loadMeta_highest_version_counterexample :
    let l := sampleLoader [record "X" 2147483648 0, record "X" 1 0] none
    let sel := (loadMeta l (idle "X")).2.d.m_metaData
    (loadMeta l (idle "X")).1 = true ∧
    ∃ c ∈ QMultiHash.values (plugins l false (idle "X").statics).1 "X",
      (QCborMap.value sel "Version").toInteger < (QCborMap.value c "Version").toInteger := by
  decide

/-- C3 (as amended): whenever `loadMeta` returns true, the selected metadata
record is one of the records stored under the provider name, and its Version
read as a 32-bit `int` is at least the so-read Version of every record stored
under that name; when every such Version fits a 32-bit `int`, the stored Version
of the selected record is at least the stored Version of every such record. -/
theorem loadMeta_selects_highest_version {E L V : Type} (l : QFactoryLoader E)
    (w : World E L V) (h : (loadMeta l w).1 = true) :
    let candidates := QMultiHash.values (plugins l false w.statics).1 w.d.m_providerName
    let sel := (loadMeta l w).2.d.m_metaData
    sel ∈ candidates ∧
    (∀ c ∈ candidates, version c ≤ version sel) ∧
    ((∀ c ∈ candidates, -2147483648 ≤ (QCborMap.value c "Version").toInteger ∧
        (QCborMap.value c "Version").toInteger < 2147483648) →
      ∀ c ∈ candidates,
        (QCborMap.value c "Version").toInteger ≤ (QCborMap.value sel "Version").toInteger) := by
  intro candidates sel
  obtain ⟨hmem, hmax⟩ := loadMeta_true l w h
  refine ⟨hmem, hmax, ?_⟩
  intro hrange c hc
  have h1 := hmax c hc
  have h2 := hrange c hc
  have h3 := hrange sel hmem
  unfold version at h1
  rw [toInt_eq_self h2.1 h2.2, toInt_eq_self h3.1 h3.2] at h1
  exact h1

/-- C3 (witness): with versions 1, 2 and 3 stored under "X", the record of
version 3 is selected. -/
theorem loadMeta_selects_highest_version_witness :
    let l := sampleLoader [record "X" 1 0, record "X" 3 0, record "X" 2 0] none
    (loadMeta l (idle "X")).1 = true ∧
    (QCborMap.value (loadMeta l (idle "X")).2.d.m_metaData "Version").toInteger = 3 ∧
    ∀ c ∈ QMultiHash.values (plugins l false (idle "X").statics).1 "X",
      (QCborMap.value c "Version").toInteger ≤
        (QCborMap.value (loadMeta l (idle "X")).2.d.m_metaData "Version").toInteger :=
  ⟨by decide, by decide,
    (loadMeta_selects_highest_version
      (sampleLoader [record "X" 1 0, record "X" 3 0, record "X" 2 0] none) (idle "X")
      (by decide)).2.2 (by decide)⟩

/-! ## C4: default selection by priority -/

/-- C4 (counterexample): provider "B" has a record of priority 5 (version 1) and
a record of priority 0 (version 2), provider "A" a record of priority 3. The
default selection resolves to "B" and creates an engine, and the metadata record
selected is the version 2 record of "B", whose Priority 0 is below the Priority
of other discovered records. -/
theorem default_selection_priority_counterexample :
    let l := sampleLoader [record "B" 1 5, record "B" 2 0, record "A" 1 3] (some workingPlugin)
    ∃ w2, setEngineProvider sampleOps l "" (idle "") = .ok w2 ∧
      w2.critical = [] ∧ w2.d.m_engine.toBool = true ∧
      (QCborMap.value w2.d.m_metaData "index").toInteger = 1 ∧
      ∃ e ∈ (plugins l false (idle "").statics).1,
        (QCborMap.value w2.d.m_metaData "Priority").toInteger <
          (QCborMap.value e.2 "Priority").toInteger := by
  refine ⟨_, rfl, ?_, ?_, ?_, ?_⟩ <;> decide

/-- C4 (as amended): when `setEngineProvider` is called with an empty name and
selection succeeds (neither the "no plug-ins found" nor the "not supported"
diagnostic is produced), the resolved provider name is the key of a cache item
whose Priority, read as `int`, is at least that of every discovered record, and
the metadata record selected is the record of highest `int` Version stored under
that provider name; it need not be the record of highest Priority. -/
theorem default_selection_by_priority {E L V : Type} (ops : QTextToSpeechEngine E L V)
    (l : QFactoryLoader E) (w w2 : World E L V)
    (h : setEngineProvider ops l "" w = .ok w2)
    (hfound : w2.critical ≠ w.critical ++ [.noPluginsFound])
    (hsupported : ∀ name, w2.critical ≠ w.critical ++ [.notSupported name]) :
    let cache := (plugins l false w.statics).1
    (∃ x ∈ cache, x.1 = w2.d.m_providerName ∧
      ∀ e ∈ cache, pluginPriority e.2 ≤ pluginPriority x.2) ∧
    w2.d.m_metaData ∈ QMultiHash.values cache w2.d.m_providerName ∧
    ∀ c ∈ QMultiHash.values cache w2.d.m_providerName, version c ≤ version w2.d.m_metaData := by
  intro cache
  have hp : ∃ p : Ptr E, (w.d.m_engine = .null ∧ p = .null) ∨
      ((∃ e, w.d.m_engine = .live e) ∧ p = .dangling) := by
    cases hm : w.d.m_engine with
    | null => exact ⟨.null, Or.inl ⟨rfl, rfl⟩⟩
    | live e => exact ⟨.dangling, Or.inr ⟨⟨e, rfl⟩, rfl⟩⟩
    | dangling =>
      rw [setEngineProvider_dangling ops l "" w hm] at h
      cases h
  obtain ⟨p, hp⟩ := hp
  rw [setEngineProvider_eq ops l "" w p hp] at h
  simp only [if_true] at h
  by_cases hc : (priorityLoop (plugins l false w.statics).1 (-1, "")).2 = ""
  · simp only [hc, if_true] at h
    injection h with h
    subst h
    exact absurd rfl hfound
  · simp only [hc, if_false] at h
    rw [loadAndCreate_statics ops l
      { w with d := { w.d with m_engine := p,
                               m_providerName :=
                                 (priorityLoop (plugins l false w.statics).1 (-1, "")).2 } }] at h
    obtain ⟨hname, hmeta, hcases⟩ := loadAndCreate_ok ops l _ w2 h
    simp only at hname
    have htrue := hcases.resolve_left (fun hns => absurd hns.2.1 (hsupported _))
    replace htrue := htrue.elim (fun ht => ht.1) (fun ht => ht.1)
    obtain ⟨hmem, hmax⟩ := loadMeta_true l _ htrue
    rw [← hmeta] at hmem hmax
    simp only at hmem hmax
    rw [← hname] at hmem hmax
    refine ⟨?_, hmem, hmax⟩
    rcases priorityLoop_spec (plugins l false w.statics).1 (-1) "" with
      ⟨heq, -⟩ | ⟨pre, x, post, hsplit, heq, -, hpre, hpost⟩
    · rw [heq] at hc
      exact absurd rfl hc
    · refine ⟨x, ?_, ?_, ?_⟩
      · show x ∈ (plugins l false w.statics).1
        rw [hsplit]
        simp
      · rw [hname, heq]
      · intro e he
        have he2 : e ∈ (plugins l false w.statics).1 := he
        rw [hsplit] at he2
        rcases List.mem_append.mp he2 with he2 | he2
        · exact le_of_lt (hpre e he2)
        · rcases List.mem_cons.mp he2 with rfl | he2
          · exact le_refl _
          · exact hpost e he2

/-- C4 (witness): with priorities A:1, B:5, C:3 the default selection loads
"B". -/
theorem default_selection_by_priority_witness :
    ∃ w2, setEngineProvider sampleOps
        (sampleLoader [record "A" 1 1, record "B" 1 5, record "C" 1 3] (some workingPlugin))
        "" (idle "") = .ok w2 ∧
      w2.d.m_providerName = "B" ∧
      ((∃ x ∈ (plugins (sampleLoader [record "A" 1 1, record "B" 1 5, record "C" 1 3]
            (some workingPlugin)) false (idle "").statics).1,
          x.1 = w2.d.m_providerName ∧
          ∀ e ∈ (plugins (sampleLoader [record "A" 1 1, record "B" 1 5, record "C" 1 3]
              (some workingPlugin)) false (idle "").statics).1,
            pluginPriority e.2 ≤ pluginPriority x.2) ∧
        w2.d.m_metaData ∈ QMultiHash.values
          (plugins (sampleLoader [record "A" 1 1, record "B" 1 5, record "C" 1 3]
            (some workingPlugin)) false (idle "").statics).1 w2.d.m_providerName ∧
        ∀ c ∈ QMultiHash.values
          (plugins (sampleLoader [record "A" 1 1, record "B" 1 5, record "C" 1 3]
            (some workingPlugin)) false (idle "").statics).1 w2.d.m_providerName,
          version c ≤ version w2.d.m_metaData) := by
  refine ⟨_, rfl, ?_, ?_⟩
  · decide
  · refine default_selection_by_priority sampleOps
      (sampleLoader [record "A" 1 1, record "B" 1 5, record "C" 1 3] (some workingPlugin))
      (idle "") _ rfl ?_ ?_
    · decide
    · intro name
      show ([] : List Critical) ≠ [] ++ [Critical.notSupported name]
      simp

/-! ## C5: when selection fails -/

/-- C5 (counterexample): the only discovered record, stored under "A", has
Version -1 and Priority -1. The cache holds a record under "A", yet `loadMeta`
returns false for "A"; the cache is not empty, yet `setEngineProvider` with an
empty name takes the "no plug-ins found" branch. -/
theorem selection_fails_counterexample :
    let l := sampleLoader [record "A" (-1) (-1)] (some workingPlugin)
    (QMultiHash.values (plugins l false (idle "A").statics).1 "A" ≠ [] ∧
      (loadMeta l (idle "A")).1 = false) ∧
    ((plugins l false (idle "").statics).1 ≠ [] ∧
      ∃ w2, setEngineProvider sampleOps l "" (idle "") = .ok w2 ∧
        w2.critical = [.noPluginsFound]) := by
  refine ⟨by decide, by decide, ⟨_, rfl, ?_⟩⟩
  decide

/-- C5 (as amended): on a cache of discovered records (non-empty maps, each
holds its index), `loadMeta` returns false if and only if no record stored under
the requested name has a Version that is at least 0 when read as `int`; and for
an empty requested name `setEngineProvider` takes the "no plug-ins found" branch
if and only if no record has a Priority that is at least 0 when read as `int`,
or the first visited record of highest such Priority is stored under the empty
provider name. -/
theorem selection_fails_iff {E L V : Type} (ops : QTextToSpeechEngine E L V)
    (l : QFactoryLoader E) (w : World E L V)
    (hrec : ∀ e ∈ w.statics.plugins, QCborMap.isEmpty e.2 = false)
    (hptr : w.d.m_engine ≠ .dangling) :
    let cache := (plugins l false w.statics).1
    ((loadMeta l w).1 = false ↔
      ∀ c ∈ QMultiHash.values cache w.d.m_providerName, version c < 0) ∧
    ((∃ w2, setEngineProvider ops l "" w = .ok w2 ∧
        w2.critical = w.critical ++ [.noPluginsFound]) ↔
      ((∀ e ∈ cache, pluginPriority e.2 < 0) ∨
        ∃ pre x post, cache = pre ++ x :: post ∧ x.1 = "" ∧ 0 ≤ pluginPriority x.2 ∧
          (∀ y ∈ pre, pluginPriority y.2 < pluginPriority x.2) ∧
          ∀ y ∈ post, pluginPriority y.2 ≤ pluginPriority x.2)) := by
  intro cache
  constructor
  · obtain ⟨hfst, -⟩ := loadMeta_eq l w
    rcases loadMetaLoop_spec (QMultiHash.values cache w.d.m_providerName) (-1) [] with
      ⟨heq, hall⟩ | ⟨pre, x, post, hsplit, heq, hlt, -, -⟩
    · have hf : (loadMeta l w).1 = false := by
        rw [hfst]
        show (!QCborMap.isEmpty (loadMetaLoop
          (QMultiHash.values cache w.d.m_providerName) (-1, [])).2) = false
        rw [heq]
        rfl
      refine ⟨fun _ c hc => ?_, fun _ => hf⟩
      have := hall c hc
      omega
    · have hxmem : x ∈ QMultiHash.values cache w.d.m_providerName := by
        rw [hsplit]
        simp
      have hxne : QCborMap.isEmpty x = false :=
        plugins_nonempty l false w.statics hrec _ (QMultiHash.mem_values.mp hxmem)
      have ht : (loadMeta l w).1 = true := by
        rw [hfst]
        show (!QCborMap.isEmpty (loadMetaLoop
          (QMultiHash.values cache w.d.m_providerName) (-1, [])).2) = true
        rw [heq]
        simp [hxne]
      constructor
      · intro hf
        rw [ht] at hf
        cases hf
      · intro hall
        have := hall x hxmem
        omega
  · have hp : ∃ p : Ptr E, (w.d.m_engine = .null ∧ p = .null) ∨
        ((∃ e, w.d.m_engine = .live e) ∧ p = .dangling) := by
      cases hm : w.d.m_engine with
      | null => exact ⟨.null, Or.inl ⟨rfl, rfl⟩⟩
      | live e => exact ⟨.dangling, Or.inr ⟨⟨e, rfl⟩, rfl⟩⟩
      | dangling => exact absurd hm hptr
    obtain ⟨p, hp⟩ := hp
    rw [setEngineProvider_eq ops l "" w p hp]
    simp only [if_true]
    by_cases hc : (priorityLoop (plugins l false w.statics).1 (-1, "")).2 = ""
    · simp only [hc, if_true]
      refine ⟨fun _ => ?_, fun _ => ⟨_, rfl, rfl⟩⟩
      rcases priorityLoop_spec (plugins l false w.statics).1 (-1) "" with
        ⟨-, hall⟩ | ⟨pre, x, post, hsplit, heq, hlt, hpre, hpost⟩
      · left
        intro e he
        have := hall e he
        omega
      · right
        rw [heq] at hc
        exact ⟨pre, x, post, hsplit, hc, by omega, hpre, hpost⟩
    · simp only [hc, if_false]
      constructor
      · rintro ⟨w2, hok, hcrit⟩
        obtain ⟨-, -, hcases⟩ := loadAndCreate_ok ops l _ w2 hok
        simp only at hcases
        rcases hcases with ⟨-, h2, -⟩ | ⟨-, h2, -⟩ | ⟨-, h2, -⟩
        · rw [h2] at hcrit
          simp at hcrit
        · rw [h2] at hcrit
          simp at hcrit
        · rw [h2] at hcrit
          simp at hcrit
      · rintro (hall | ⟨pre, x, post, hsplit, hname, hx, hpre, hpost⟩)
        · exfalso
          rcases priorityLoop_spec (plugins l false w.statics).1 (-1) "" with
            ⟨heq, -⟩ | ⟨pre, x, post, hsplit, -, hlt, -, -⟩
          · rw [heq] at hc
            exact hc rfl
          · have := hall x (by show x ∈ (plugins l false w.statics).1; rw [hsplit]; simp)
            omega
        · exfalso
          rw [priorityLoop_first_max hsplit hpre hpost hx] at hc
          exact hc hname

/-- C5 (witness): with one record of Version 1 and Priority 0 under "A",
`loadMeta` succeeds for "A" and fails for "B", and the default selection does
not take the "no plug-ins found" branch. -/
theorem selection_fails_iff_witness :
    ((loadMeta (sampleLoader [record "A" 1 0] (some workingPlugin)) (idle "B")).1 = false ↔
      ∀ c ∈ QMultiHash.values
        (plugins (sampleLoader [record "A" 1 0] (some workingPlugin)) false
          (idle "B").statics).1 (idle "B").d.m_providerName, version c < 0) ∧
    (loadMeta (sampleLoader [record "A" 1 0] (some workingPlugin)) (idle "B")).1 = false ∧
    (loadMeta (sampleLoader [record "A" 1 0] (some workingPlugin)) (idle "A")).1 = true :=
  ⟨(selection_fails_iff sampleOps (sampleLoader [record "A" 1 0] (some workingPlugin))
      (idle "B") (by decide) (by decide)).1, by decide, by decide⟩

/-! ## C10: ties -/

/-- C10 (counterexample): two records of "X" share the highest Version; the
candidate list starts with the record of index 1 and ends with the record of
index 0, and `loadMeta` selects the first of them, not the last. Two records,
of "A" and of "B", share the highest Priority; "A" is visited first and "B"
last, and the default selection resolves to "A". -/
theorem last_seen_wins_counterexample :
    (let l := sampleLoader [record "X" 1 0, record "X" 1 0] none
     let candidates := QMultiHash.values (plugins l false (idle "X").statics).1 "X"
     let sel := (loadMeta l (idle "X")).2.d.m_metaData
     (∀ c ∈ candidates, version c = 1) ∧
     candidates.head? = some sel ∧ candidates.getLast? ≠ some sel) ∧
    (let l := sampleLoader [record "A" 1 5, record "B" 1 5] (some workingPlugin)
     let cache := (plugins l false (idle "").statics).1
     (∀ e ∈ cache, pluginPriority e.2 = 5) ∧
     (cache.map Prod.fst).head? = some "A" ∧ (cache.map Prod.fst).getLast? = some "B" ∧
     ∃ w2, setEngineProvider sampleOps l "" (idle "") = .ok w2 ∧
       w2.d.m_providerName = "A") := by
  refine ⟨by decide, by decide, by decide, by decide, ⟨_, rfl, ?_⟩⟩
  decide

/-- C10 (as amended): in both selection loops the first-seen entry wins ties.
When the candidate list of `loadMeta` splits into records of lower Version, a
record `x` (non-empty map, Version at least 0), and records of Version at most
that of `x`, then `loadMeta` returns true and selects `x`. When the items of the
cache split in the same way by Priority around an item `x` with a non-empty key,
the priority loop resolves the provider of `x`, the default selection proceeds
exactly as the selection of that provider, and every completed default
selection leaves the provider of `x` as the provider name (Version and Priority
read as `int`). -/
theorem first_seen_wins_ties {E L V : Type} (ops : QTextToSpeechEngine E L V)
    (l : QFactoryLoader E) (w : World E L V) :
    (∀ pre x post,
      QMultiHash.values (plugins l false w.statics).1 w.d.m_providerName = pre ++ x :: post →
      (∀ y ∈ pre, version y < version x) → (∀ y ∈ post, version y ≤ version x) →
      0 ≤ version x → QCborMap.isEmpty x = false →
      (loadMeta l w).1 = true ∧ (loadMeta l w).2.d.m_metaData = x) ∧
    (∀ pre x post,
      (plugins l false w.statics).1 = pre ++ x :: post →
      (∀ y ∈ pre, pluginPriority y.2 < pluginPriority x.2) →
      (∀ y ∈ post, pluginPriority y.2 ≤ pluginPriority x.2) →
      0 ≤ pluginPriority x.2 → x.1 ≠ "" →
      priorityLoop (plugins l false w.statics).1 (-1, "") = (pluginPriority x.2, x.1) ∧
      setEngineProvider ops l "" w = setEngineProvider ops l x.1 w ∧
      ∀ w2, setEngineProvider ops l "" w = .ok w2 →
        w2.d.m_providerName = x.1 ∧ engine w2 = x.1) := by
  constructor
  · intro pre x post hsplit hpre hpost hx hne
    obtain ⟨hfst, -, -, -, -, -, hmeta⟩ := loadMeta_eq l w
    simp only [loadMetaLoop_first_max hsplit hpre hpost hx, hne] at hfst hmeta
    exact ⟨by simpa using hfst, by simpa using hmeta⟩
  · intro pre x post hsplit hpre hpost hx hne
    have heq := priorityLoop_first_max hsplit hpre hpost hx
    have hc : (priorityLoop (plugins l false w.statics).1 (-1, "")).2 ≠ "" := by
      rw [heq]
      exact hne
    have h := setEngineProvider_default ops l w hc
    rw [heq] at h
    refine ⟨heq, h, fun w2 hok => ?_⟩
    rw [h] at hok
    have hname := setEngineProvider_name ops l x.1 w w2 hne hok
    exact ⟨hname, hname⟩

/-- C10 (witness): of two records of "X" with Version 1, the one that comes
first in the candidate list (index 1) is selected; of the records of "A" and "B"
with Priority 5, "A" is visited first and the default selection completes with
the provider name "A". -/
theorem first_seen_wins_ties_witness :
    ((loadMeta (sampleLoader [record "X" 1 0, record "X" 1 0] none) (idle "X")).1 = true ∧
      (loadMeta (sampleLoader [record "X" 1 0, record "X" 1 0] none) (idle "X")).2.d.m_metaData =
        QCborMap.insert (record "X" 1 0) "index" (.integer 1)) ∧
    (priorityLoop
        (plugins (sampleLoader [record "A" 1 5, record "B" 1 5] (some workingPlugin)) false
          (idle "").statics).1 (-1, "") = (5, "A") ∧
      ∃ w2, setEngineProvider sampleOps
          (sampleLoader [record "A" 1 5, record "B" 1 5] (some workingPlugin)) "" (idle "")
            = .ok w2 ∧
        w2.d.m_providerName = "A" ∧ engine w2 = "A") := by
  refine ⟨?_, ?_⟩
  · exact (first_seen_wins_ties sampleOps (sampleLoader [record "X" 1 0, record "X" 1 0] none)
        (idle "X")).1 []
      (QCborMap.insert (record "X" 1 0) "index" (.integer 1))
      [QCborMap.insert (record "X" 1 0) "index" (.integer 0)]
      (by decide) (by decide) (by decide) (by decide) (by decide)
  · have h := (first_seen_wins_ties sampleOps
        (sampleLoader [record "A" 1 5, record "B" 1 5] (some workingPlugin)) (idle "")).2 []
      ("A", QCborMap.insert (record "A" 1 5) "index" (.integer 0))
      [("B", QCborMap.insert (record "B" 1 5) "index" (.integer 1))]
      (by decide) (by decide) (by decide) (by decide) (by decide)
    exact ⟨h.1, _, rfl, h.2.2 _ rfl⟩

/-! ## C1: `setEngine` with a name that has no record -/

/-- C1 (counterexample): the facade has no engine and the provider name
"missing"; the cache holds one record, under "A". The empty name differs from
the current provider name and the cache holds no record for it, yet
`setEngine("")` returns true: the default provider "A" is loaded and `state()`
is `Ready`. -/
theorem setEngine_no_record_counterexample :
    let l := sampleLoader [record "A" 1 0] (some workingPlugin)
    "" ≠ (idle "missing").d.m_providerName ∧
    QMultiHash.values (plugins l false (idle "missing").statics).1 "" = [] ∧
    ∃ w2, setEngine sampleOps l "" (idle "missing") = .ok (true, w2) ∧
      state sampleOps w2 = .ok .Ready ∧ engine w2 = "A" := by
  refine ⟨by decide, by decide, ⟨_, rfl, ?_, ?_⟩⟩
  · rfl
  · decide

/-- C1 (as amended): for every facade that has no engine and every non-empty
name different from the current provider name for which the metadata cache holds
no record, `setEngine(name)` returns false and `state()` afterwards returns
`BackendError`; no engine is loaded, the provider name is `name`, the
"not supported" diagnostic is produced and `engineChanged(name)` is emitted. -/
theorem setEngine_no_record {E L V : Type} (ops : QTextToSpeechEngine E L V)
    (l : QFactoryLoader E) (name : String) (w : World E L V)
    (hnull : w.d.m_engine = .null) (hne : name ≠ "") (hdiff : w.d.m_providerName ≠ name)
    (hmiss : QMultiHash.values (plugins l false w.statics).1 name = []) :
    ∃ w2, setEngine ops l name w = .ok (false, w2) ∧
      state ops w2 = .ok .BackendError ∧
      w2.d.m_engine = .null ∧ engine w2 = name ∧
      w2.emitted = w.emitted ++ [.engineChanged name] ∧
      w2.critical = w.critical ++ [.notSupported name] := by
  unfold setEngine
  simp only [hdiff, if_false]
  rw [setEngineProvider_missing ops l name w hnull hne hmiss]
  exact ⟨_, rfl, rfl, rfl, rfl, rfl, rfl⟩

/-- C1 (witness): a facade without engine that is asked for "missing" while
only "A" is installed. -/
theorem setEngine_no_record_witness :
    ∃ w2, setEngine sampleOps (sampleLoader [record "A" 1 0] (some workingPlugin))
        "missing" (idle "") = .ok (false, w2) ∧
      state sampleOps w2 = .ok .BackendError ∧
      w2.d.m_engine = .null ∧ engine w2 = "missing" ∧
      w2.emitted = (idle "").emitted ++ [.engineChanged "missing"] ∧
      w2.critical = (idle "").critical ++ [.notSupported "missing"] :=
  setEngine_no_record sampleOps (sampleLoader [record "A" 1 0] (some workingPlugin))
    "missing" (idle "") rfl (by decide) (by decide) (by decide)

/-- The case C1 leaves out: with a loaded engine, `setEngineProvider` deletes
the engine and returns on the "not supported" branch without resetting
`m_engine`; `setEngine` then returns true and `state()` uses the deleted
engine. -/
theorem setEngine_no_record_loaded {E L V : Type} (ops : QTextToSpeechEngine E L V)
    (l : QFactoryLoader E) (name : String) (w : World E L V) (e : E)
    (hlive : w.d.m_engine = .live e) (hne : name ≠ "") (hdiff : w.d.m_providerName ≠ name)
    (hmiss : QMultiHash.values (plugins l false w.statics).1 name = []) :
    ∃ w2, setEngine ops l name w = .ok (true, w2) ∧
      w2.d.m_engine = .dangling ∧ state ops w2 = .error .useAfterFree := by
  unfold setEngine
  simp only [hdiff, if_false]
  rw [setEngineProvider_eq ops l name w .dangling (Or.inr ⟨⟨e, hlive⟩, rfl⟩)]
  simp only [hne, if_false]
  have hm := loadMeta_missing l
    { w with d := { w.d with m_engine := .dangling, m_providerName := name } } hmiss
  rw [loadAndCreate_not_supported ops l _ (by rw [hm])]
  rw [hm]
  exact ⟨_, rfl, rfl, rfl⟩

/-! ## C2: a plug-in that returns a null engine -/

/-- C2 (failing input): the facade has no engine, "A" is installed and its
plug-in returns a null engine; `setEngineProvider("A")` dereferences the null
`m_engine` at line 102 instead of completing. -/
theorem setEngineProvider_null_engine :
    setEngineProvider sampleOps (sampleLoader [record "A" 1 0] (some failingPlugin))
      "A" (idle "") = .error .nullDereference := by
  rfl

/-! ## C9: a facade constructed with a missing provider -/

/-- C9 (counterexample): a facade constructed with "missing-provider" while no
plug-in is installed reports that name as its engine, not the empty name. -/
theorem create_missing_counterexample :
    QMultiHash.values
      (plugins (sampleLoader [] none) false Statics.init).1 "missing-provider" = [] ∧
    ∃ w2 : World SampleEngine String String,
      QTextToSpeech.create sampleOps (sampleLoader [] none) "missing-provider" Statics.init
        = .ok w2 ∧
      engine w2 = "missing-provider" ∧ engine w2 ≠ "" := by
  refine ⟨by decide, ⟨_, rfl, ?_, ?_⟩⟩ <;> decide

/-- C9 (as amended): for every non-empty provider name for which the metadata
cache holds no record, a facade constructed with that name reports the
requested name as `engine()`, `state()` returns `BackendError`, no signal has
been emitted, and `say(text)` changes nothing for every text. -/
theorem create_missing {E L V : Type} (ops : QTextToSpeechEngine E L V)
    (l : QFactoryLoader E) (name : String) (s : Statics) (hne : name ≠ "")
    (hmiss : QMultiHash.values (plugins l false s).1 name = []) :
    ∃ w2 : World E L V, QTextToSpeech.create ops l name s = .ok w2 ∧
      engine w2 = name ∧ state ops w2 = .ok .BackendError ∧ w2.emitted = [] ∧
      ∀ text, say ops text w2 = .ok w2 := by
  unfold QTextToSpeech.create
  rw [setEngineProvider_missing ops l name _ rfl hne hmiss]
  exact ⟨_, rfl, rfl, rfl, rfl, fun _ => rfl⟩

/-- C9 (witness): the facade constructed with "missing-provider" while only "A"
is installed. -/
theorem create_missing_witness :
    ∃ w2 : World SampleEngine String String,
      QTextToSpeech.create sampleOps (sampleLoader [record "A" 1 0] (some workingPlugin))
        "missing-provider" Statics.init = .ok w2 ∧
      engine w2 = "missing-provider" ∧ state sampleOps w2 = .ok .BackendError ∧
      w2.emitted = [] ∧ ∀ text, say sampleOps text w2 = .ok w2 :=
  create_missing sampleOps (sampleLoader [record "A" 1 0] (some workingPlugin))
    "missing-provider" Statics.init (by decide) (by decide)

/-! ## C6: discovery and its cache -/

theorem values_loadPluginMetadataFrom (i : Nat) (ms : List QCborMap) (h : QMultiHash)
    (key : String) :
    QMultiHash.values (loadPluginMetadataFrom i ms h) key =
      (QMultiHash.values (specItemsFrom i ms) key).reverse ++ QMultiHash.values h key := by
  induction ms generalizing i h with
  | nil => simp [loadPluginMetadataFrom, specItemsFrom, QMultiHash.values]
  | cons md rest ih =>
    have hprov : QCborMap.value (QCborMap.insert md "index" (.integer i)) "Provider" =
        QCborMap.value md "Provider" :=
      QCborMap.value_insert_other md "index" "Provider" _ (by decide)
    simp only [loadPluginMetadataFrom, specItemsFrom, ih, hprov, QMultiHash.values_insert]
    by_cases hk : (QCborMap.value md "Provider").toString = key
    · simp [QMultiHash.values, hk]
    · simp [QMultiHash.values, hk]

theorem QMultiHash.length_insert (h : QMultiHash) (key : String) (value : QCborMap) :
    (QMultiHash.insert h key value).length = h.length + 1 := by
  induction h with
  | nil => simp [QMultiHash.insert]
  | cons p rest ih =>
    obtain ⟨k, v⟩ := p
    by_cases hk : k = key <;> simp [QMultiHash.insert, hk, ih]

theorem length_loadPluginMetadataFrom (i : Nat) (ms : List QCborMap) (h : QMultiHash) :
    (loadPluginMetadataFrom i ms h).length = ms.length + h.length := by
  induction ms generalizing i h with
  | nil => simp [loadPluginMetadataFrom]
  | cons md rest ih =>
    simp only [loadPluginMetadataFrom, ih, QMultiHash.length_insert, List.length_cons]
    omega

/-- What `plugins(reload = true)` computes: it adds one item per loader record
(keyed by its Provider, tagged with its position as index, the latest first
among the values of a key) to the items already cached, which are never
cleared; the result is the mapping built from the list alone exactly when
nothing was cached before. After any call, `plugins(reload = false)` returns the
cached mapping unchanged without rescanning, whatever the loader then reports. -/
theorem plugins_reload_adds {E : Type} (l l2 : QFactoryLoader E) (s : Statics) :
    (∀ key, QMultiHash.values (plugins l true s).1 key =
      (QMultiHash.values (specItemsFrom 0 l.metaData) key).reverse ++
        QMultiHash.values s.plugins key) ∧
    ((plugins l true s).1 = loadPluginMetadata l [] ↔ s.plugins = []) ∧
    (∀ reload, plugins l2 false (plugins l reload s).2 =
      ((plugins l reload s).1, (plugins l reload s).2)) := by
  refine ⟨fun key => ?_, ⟨fun heq => ?_, fun hs => ?_⟩,
    fun reload => plugins_again l l2 reload s⟩
  · simp only [plugins, loadPluginMetadata, if_true, Bool.not_false]
    exact values_loadPluginMetadataFrom 0 l.metaData s.plugins key
  · have hlen := congrArg List.length heq
    simp only [plugins, loadPluginMetadata, if_true, Bool.not_false,
      length_loadPluginMetadataFrom, List.length_nil] at hlen
    exact List.length_eq_zero.mp (by omega)
  · simp [plugins, hs]

/-- C6 (failing input): after a completed discovery of the single plug-in "A",
`plugins(reload = true)` with the same loader list does not return the mapping
built from the list alone: the cache was not cleared, "A" has two items (both
with index 0), and `availableEngines()` then lists "A" twice. -/
theorem plugins_reload_duplicates :
    (plugins (sampleLoader [record "A" 1 0] none) true
        (plugins (sampleLoader [record "A" 1 0] none) false Statics.init).2).1 ≠
      loadPluginMetadata (sampleLoader [record "A" 1 0] none) [] ∧
    QMultiHash.values
        (plugins (sampleLoader [record "A" 1 0] none) true
          (plugins (sampleLoader [record "A" 1 0] none) false Statics.init).2).1 "A" =
      [QCborMap.insert (record "A" 1 0) "index" (.integer 0),
       QCborMap.insert (record "A" 1 0) "index" (.integer 0)] ∧
    QMultiHash.values (loadPluginMetadata (sampleLoader [record "A" 1 0] none) []) "A" =
      [QCborMap.insert (record "A" 1 0) "index" (.integer 0)] ∧
    (availableEngines (sampleLoader [record "A" 1 0] none)
        (plugins (sampleLoader [record "A" 1 0] none) true
          (plugins (sampleLoader [record "A" 1 0] none) false Statics.init).2).2).1 =
      ["A", "A"] := by
  decide

/-! ## C7: the facade without engine -/

/-- C7 (counterexample): "A" is installed but its plug-in does not load. The
default facade has no engine, and `engine()` returns "A", not the empty name. -/
theorem no_engine_name_counterexample :
    ∃ w2 : World SampleEngine String String,
      QTextToSpeech.create sampleOps (sampleLoader [record "A" 1 0] none) "" Statics.init
        = .ok w2 ∧
      w2.d.m_engine = .null ∧ engine w2 = "A" ∧ engine w2 ≠ "" := by
  refine ⟨_, rfl, ?_, ?_, ?_⟩ <;> decide

/-- C7 (as amended): for every facade with no engine loaded and every argument,
`say`, `stop`, `pause`, `resume`, `setPitch`, `setRate`, `setVolume`,
`setLocale` and `setVoice` leave the facade unchanged and emit no signal;
`pitch`, `rate` and `volume` return 0.0, `locale` and `voice` their default
values, `availableLocales` and `availableVoices` empty lists, `state()` returns
`BackendError`, and `engine` returns the stored provider name, which need not be
empty. -/
theorem no_engine_noop {E L V : Type} [Inhabited L] [Inhabited V]
    (ops : QTextToSpeechEngine E L V) (w : World E L V) (hnull : w.d.m_engine = .null)
    (text : String) (x : ℚ) (loc : L) (v : V) :
    say ops text w = .ok w ∧ stop ops w = .ok w ∧ pause ops w = .ok w ∧
    resume ops w = .ok w ∧ setPitch ops x w = .ok w ∧ setRate ops x w = .ok w ∧
    setVolume ops x w = .ok w ∧ setLocale ops loc w = .ok w ∧ setVoice ops v w = .ok w ∧
    pitch ops w = .ok 0 ∧ rate ops w = .ok 0 ∧ volume ops w = .ok 0 ∧
    locale ops w = .ok default ∧ voice ops w = .ok default ∧
    availableLocales ops w = .ok [] ∧ availableVoices ops w = .ok [] ∧
    engine w = w.d.m_providerName ∧ state ops w = .ok .BackendError := by
  simp [say, stop, pause, resume, setPitch, setRate, setVolume, setLocale, setVoice, pitch,
    rate, volume, locale, voice, availableLocales, availableVoices, engine, state, hnull]

/-- C7 (witness): the facade without engine and with the provider name
"missing". -/
theorem no_engine_noop_witness :
    say sampleOps "hello" (idle "missing") = .ok (idle "missing") ∧
    stop sampleOps (idle "missing") = .ok (idle "missing") ∧
    pause sampleOps (idle "missing") = .ok (idle "missing") ∧
    resume sampleOps (idle "missing") = .ok (idle "missing") ∧
    setPitch sampleOps 1 (idle "missing") = .ok (idle "missing") ∧
    setRate sampleOps 1 (idle "missing") = .ok (idle "missing") ∧
    setVolume sampleOps 1 (idle "missing") = .ok (idle "missing") ∧
    setLocale sampleOps "de_DE" (idle "missing") = .ok (idle "missing") ∧
    setVoice sampleOps "anna" (idle "missing") = .ok (idle "missing") ∧
    pitch sampleOps (idle "missing") = .ok 0 ∧ rate sampleOps (idle "missing") = .ok 0 ∧
    volume sampleOps (idle "missing") = .ok 0 ∧
    locale sampleOps (idle "missing") = .ok default ∧
    voice sampleOps (idle "missing") = .ok default ∧
    availableLocales sampleOps (idle "missing") = .ok [] ∧
    availableVoices sampleOps (idle "missing") = .ok [] ∧
    engine (idle "missing") = (idle "missing").d.m_providerName ∧
    state sampleOps (idle "missing") = .ok .BackendError :=
  no_engine_noop sampleOps (idle "missing") rfl "hello" 1 "de_DE" "anna"

/-! ## C8: `setVolume` -/

theorem qBound_eq (v : ℚ) : qBound 0 v 1 = min (max v 0) 1 := by
  unfold qBound qMax qMin
  by_cases h1 : (1 : ℚ) < v
  · have h0 : (0 : ℚ) < 1 := by norm_num
    rw [if_pos h1, if_pos h0, max_eq_left (by linarith), min_eq_right (by linarith)]
  · rw [if_neg h1]
    push_neg at h1
    by_cases h0 : (0 : ℚ) < v
    · rw [if_pos h0, max_eq_left (le_of_lt h0), min_eq_left h1]
    · rw [if_neg h0]
      push_neg at h0
      rw [max_eq_right h0, min_eq_left (by norm_num)]

theorem qBound_idem (v : ℚ) : qBound 0 (qBound 0 v 1) 1 = qBound 0 v 1 := by
  rw [qBound_eq (qBound 0 v 1), qBound_eq v]
  have h1 : min (max v 0) 1 ≤ 1 := min_le_right _ _
  have h0 : (0 : ℚ) ≤ min (max v 0) 1 := le_min (le_max_right _ _) (by norm_num)
  rw [max_eq_left h0, min_eq_left h1]

/-- C8: for every facade with an engine and every volume `v`, `setVolume(v)`
passes `min(max(v, 0), 1)` to the engine and emits `volumeChanged` with that
value exactly when the engine accepts it, leaving everything else unchanged; it
has the same effect as `setVolume` of the clamped value, `setVolume(-5)` behaves
as `setVolume(0)` and `setVolume(5)` as `setVolume(1)`. -/
theorem setVolume_clamps {E L V : Type} (ops : QTextToSpeechEngine E L V)
    (w : World E L V) (e : E) (hlive : w.d.m_engine = .live e) (v : ℚ) :
    (∃ w2, setVolume ops v w = .ok w2 ∧
      w2.d.m_engine = .live (ops.setVolume e (min (max v 0) 1)).2 ∧
      (w2.emitted = w.emitted ++ [.volumeChanged (min (max v 0) 1)] ↔
        (ops.setVolume e (min (max v 0) 1)).1 = true) ∧
      (w2.emitted = w.emitted ↔ (ops.setVolume e (min (max v 0) 1)).1 = false) ∧
      w2.statics = w.statics ∧ w2.critical = w.critical ∧
      w2.d.m_providerName = w.d.m_providerName ∧ w2.d.m_metaData = w.d.m_metaData) ∧
    setVolume ops v w = setVolume ops (min (max v 0) 1) w ∧
    setVolume ops (-5) w = setVolume ops 0 w ∧
    setVolume ops 5 w = setVolume ops 1 w := by
  have hsame : ∀ a b : ℚ, qBound 0 a 1 = qBound 0 b 1 → setVolume ops a w = setVolume ops b w := by
    intro a b hab
    unfold setVolume
    simp only [hab]
  refine ⟨?_, ?_, ?_, ?_⟩
  · unfold setVolume
    simp only [hlive, qBound_eq]
    cases hacc : (ops.setVolume e (min (max v 0) 1)).1
    · simp
    · simp
  · apply hsame
    rw [← qBound_eq, qBound_idem]
  · apply hsame
    rw [qBound_eq, qBound_eq]
    norm_num
  · apply hsame
    rw [qBound_eq, qBound_eq]
    norm_num

/-- C8 (witness): the sample engine accepts every volume; `setVolume(5)` on a
loaded facade stores the volume 1 and emits `volumeChanged(1)`. -/
theorem setVolume_clamps_witness :
    ∃ w2, setVolume sampleOps 5
        { idle "A" with d := { (idle "A").d with
            m_engine := .live { state := .Ready, volume := 0, providerName := "A" } } } = .ok w2 ∧
      w2.d.m_engine = .live { state := .Ready, volume := 1, providerName := "A" } ∧
      w2.emitted = [.volumeChanged 1] := by
  obtain ⟨⟨w2, hok, heng, hemit, -⟩, -⟩ := setVolume_clamps sampleOps
    { idle "A" with d := { (idle "A").d with
        m_engine := .live { state := .Ready, volume := 0, providerName := "A" } } }
    { state := .Ready, volume := 0, providerName := "A" } rfl 5
  refine ⟨w2, hok, ?_, ?_⟩
  · rw [heng]
    simp only [sampleOps]
    norm_num
  · have := hemit.mpr rfl
    rw [this]
    simp only [idle, List.nil_append]
    norm_num

end QtSpeech
